import Mathlib

/-!
Verification development for the emergency-knowledge retrieval engine of the
repository (class `EmergencyKnowledgeVectorDB` in
`src/streamlit_app/backend/vector_db.py`).

Modelling conventions, used consistently below:

* Scores and vector entries are rational numbers (`ℚ`); the Python floats of
  the source are idealised as exact rationals.
* The sentence-transformer model is an external dependency.  Every call site
  in the source encodes a text and immediately L2-normalizes the result
  (`model.encode` followed by `faiss.normalize_L2`), so the composition is
  modelled as one abstract function `Enc : String → Option Vec`; `none`
  models an exception raised by the embedding call.  A batched
  `model.encode(texts)` call is `encodeAll`, which fails when the underlying
  encoder fails on any element.
* The langchain `RecursiveCharacterTextSplitter` is likewise external and is
  modelled as an abstract chunking function `Splitter : String → List String`.
* Python dicts used as document records become the structure `Doc`; keys that
  may be absent (`file_path`, `relevance_score`, `category_confidence`)
  become `Option` fields.
* The faiss `IndexFlatIP` is a list of inserted vectors; its `search` returns
  the top-k entries by inner product (descending, ties by insertion order as
  the spec states) and, exactly like faiss, pads with label `-1` and a
  `-FLT_MAX` score when `k` exceeds the number of stored vectors.
* Local files become the `Storage` structure; a present-but-unreadable file
  (corrupt pickle, an `np.save(None)` artifact that the default `np.load`
  refuses, …) is `FileD.bad`.
* Methods that assign to `self` are state-passing functions on `DBState`
  (the triple of the in-memory document list, embedding matrix and index).
  Methods whose body catches every exception are total; `search`, which has
  no handler around its encoding call and its list indexing, returns an
  `Option` where `none` models an escaping exception.
-/

namespace VectorDB

/-- Dense embedding vector with rational entries. -/
abbrev Vec := List ℚ

/-- The external sentence-embedding model composed with `faiss.normalize_L2`
(every call site of the source normalizes right after encoding); `none` models
an exception raised by the model call. -/
abbrev Enc := String → Option Vec

/-- The external langchain `RecursiveCharacterTextSplitter.split_text`. -/
abbrev Splitter := String → List String

/-- Inner product of two vectors (`np.dot`). -/
def dot (a b : Vec) : ℚ := (List.zipWith (fun x y => x * y) a b).sum

/-- Batched `model.encode` over a list of texts: fails (raises) iff the
encoder fails on some element. -/
def encodeAll (enc : Enc) : List String → Option (List Vec)
  | [] => some []
  | t :: ts =>
    match enc t, encodeAll enc ts with
    | some v, some vs => some (v :: vs)
    | _, _ => none

/-- Field `self.content_relevance_threshold = 0.20`. -/
def contentRelevanceThreshold : ℚ := 20 / 100

/-- Field `self.category_similarity_threshold = 0.3`. -/
def categorySimilarityThreshold : ℚ := 3 / 10

/-- The fixed keyword list of `is_emergency_relevant_content`. -/
def emergencyKeywords : List String :=
  ["emergency", "disaster", "safety", "evacuation", "rescue", "first aid",
   "fire", "flood", "earthquake", "storm", "hurricane", "tornado", "medical",
   "help", "danger", "warning", "prepare", "response", "survival", "shelter",
   "emergency kit", "emergency plan", "emergency supplies", "hazard", "risk"]

/-- The fixed canonical description sentence of `is_emergency_relevant_content`. -/
def emergencyDescription : String :=
  "emergency response disaster preparedness safety procedures evacuation first aid rescue operations"

/-- Keys of `self.emergency_categories`, in insertion (= iteration) order. -/
def categoryNames : List String :=
  ["earthquake", "flood", "hurricane", "wildfire", "tornado", "first_aid",
   "communication", "evacuation", "water_safety", "sri_lanka_specific"]

/-- The `description` texts of `self.emergency_categories`, in the same order
as `categoryNames`.  (The `name` and `keywords` entries of the taxonomy are
never read by the modelled operations, only printed.) -/
def categoryDescriptions : List String :=
  ["Earthquake preparedness, response during seismic activity, drop cover hold procedures, aftershock safety, building damage assessment, post-earthquake recovery, seismic hazards, ground shaking, structural collapse prevention",
   "Flood safety procedures, water evacuation, flash flood response, driving in flooded areas, water damage cleanup, flood preparedness, rising water levels, water rescue, turn around don\x27t drown",
   "Hurricane preparedness, tropical storm safety, high wind protection, storm surge evacuation, hurricane eye safety, boarding windows, evacuation routes, shelter procedures, typhoon cyclone response",
   "Wildfire evacuation procedures, fire safety, smoke protection, defensible space, fire-resistant landscaping, escape routes, firefighting, forest fire, brush fire, fire shelter",
   "Tornado shelter procedures, severe weather response, basement safety, mobile home evacuation, tornado warning signs, safe rooms, storm cellars, debris protection, severe thunderstorms",
   "First aid procedures, medical emergency response, bleeding control, shock treatment, CPR, wound care, emergency medical treatment, injury assessment, life-saving techniques, medical supplies",
   "Emergency communication systems, radio procedures, emergency contacts, alert systems, communication during disasters, emergency broadcasting, family communication plans, emergency signals",
   "Evacuation planning, escape routes, shelter procedures, emergency exits, transportation during emergencies, evacuation orders, safe zones, temporary shelters, relocation procedures",
   "Water purification methods, emergency water sources, water safety during disasters, drinking water contamination, water storage, water treatment, waterborne diseases, emergency hydration",
   "Sri Lanka specific emergency procedures, monsoon safety, landslide warnings, tsunami response, local emergency services, tropical climate disasters, regional emergency protocols, local hazards"]

/-- Python `str.lower()` (the data here is ASCII). -/
def pyLower (s : String) : String := String.mk (s.toList.map Char.toLower)

/-- Helper for `pyWords`: group a character list into maximal runs of
non-whitespace characters. -/
def wordsAux : List Char → List Char → List (List Char)
  | [], cur => if cur.isEmpty then [] else [cur.reverse]
  | c :: cs, cur =>
    if c.isWhitespace then
      if cur.isEmpty then wordsAux cs [] else cur.reverse :: wordsAux cs []
    else wordsAux cs (c :: cur)

/-- Python `str.split()` with no argument: split on whitespace runs,
discarding empty pieces. -/
def pyWords (s : String) : List String := (wordsAux s.toList []).map String.mk

/-- Python substring containment `needle in hay`. -/
def strContainsSub (hay needle : String) : Bool :=
  hay.toList.tails.any (fun t => needle.toList.isPrefixOf t)

/-- Counts `sum(1 for keyword in emergency_keywords if keyword in content_lower)`:
the number of fixed keywords occurring as substrings of the lowered text. -/
def keywordMatches (contentLower : String) : Nat :=
  (emergencyKeywords.filter (fun kw => strContainsSub contentLower kw)).length

/-- Method `is_emergency_relevant_content(content) -> (is_relevant, score)`.
The `match` arm with `none` is the `except` fallback of the source (lexical
percentage only, relevant iff at least 1%). -/
def isEmergencyRelevantContent (enc : Enc) (content : String) : Bool × ℚ :=
  let contentLower := pyLower content
  let keywordCount := keywordMatches contentLower
  let words := pyWords contentLower
  if words.length = 0 then (false, 0)
  else
    let relevanceScore : ℚ := (keywordCount : ℚ) / (words.length : ℚ) * 100
    match enc content, enc emergencyDescription with
    | some contentEmb, some emergencyEmb =>
      let semanticSimilarity := dot contentEmb emergencyEmb
      let combinedScore := relevanceScore / 100 * (3 / 10) + semanticSimilarity * (7 / 10)
      (decide (contentRelevanceThreshold ≤ combinedScore), combinedScore)
    | _, _ => (decide ((1 : ℚ) ≤ relevanceScore), relevanceScore / 100)

/-- Helper for `argmaxPair`: running best value and its index.  The update is
on strict increase only, so the FIRST maximum wins, as with `np.argmax`. -/
def argmaxAux : List ℚ → ℚ → Nat → Nat → ℚ × Nat
  | [], best, bestIdx, _ => (best, bestIdx)
  | x :: xs, best, bestIdx, i =>
    if best < x then argmaxAux xs x i (i + 1) else argmaxAux xs best bestIdx (i + 1)

/-- The `np.argmax` position together with the value at that position:
`(similarities[best_idx], best_idx)`. -/
def argmaxPair : List ℚ → ℚ × Nat
  | [] => (0, 0)
  | x :: xs => argmaxAux xs x 0 1

/-- Method `determine_content_category(content) -> (category, confidence,
is_relevant)`.  The category description embeddings of
`get_category_embeddings` are `encodeAll enc categoryDescriptions` (the lazy
per-process cache is an optimisation with no observable effect).  Note that
the source compares `best_score` against `self.content_relevance_threshold`,
not `self.category_similarity_threshold`.  The second `match` arm is the
`except` branch returning the sentinel. -/
def determineContentCategory (enc : Enc) (content : String) : String × ℚ × Bool :=
  match enc content, encodeAll enc categoryDescriptions with
  | some contentEmb, some categoryEmbs =>
    let similarities := categoryEmbs.map (fun w => dot contentEmb w)
    let best := argmaxPair similarities
    (categoryNames.getD best.2 "emergency_guide", best.1,
      decide (contentRelevanceThreshold ≤ best.1))
  | _, _ => ("emergency_guide", 0, false)

/-- Document chunk record (the Python dict).  Keys that may be absent in the
source dicts are `Option` fields. -/
structure Doc where
  category : String
  title : String
  content : String
  source : String
  chunkId : Nat
  filePath : Option String := none
  relevanceScore : Option ℚ := none
  categoryConfidence : Option ℚ := none
  deriving DecidableEq

/-- The faiss `IndexFlatIP`: a dimensionality and the inserted vectors in
insertion order (`ntotal = vecs.length`). -/
structure FaissIndex where
  dim : Nat
  vecs : List Vec
  deriving DecidableEq

/-- In-memory state of `EmergencyKnowledgeVectorDB`: `self.documents`,
`self.embeddings` (`None` before a build), `self.index`. -/
structure DBState where
  documents : List Doc
  embeddings : Option (List Vec)
  index : Option FaissIndex
  deriving DecidableEq

/-- A file that exists on disk: readable with payload `a`, or present but
unreadable (`bad`: corrupt pickle/index, or the artifact `np.save(None)`
leaves, which the default `np.load` refuses to unpickle). -/
inductive FileD (α : Type) where
  | ok (a : α)
  | bad
  deriving DecidableEq

/-- The `metadata.json` manifest written by `save_locally`. -/
structure Meta where
  modelName : String
  numDocuments : Nat
  embeddingDimension : Option Nat
  createdAt : String
  sourceBreakdown : List (String × Nat)
  deriving DecidableEq

/-- The local storage directory: `documents.pkl`, `embeddings.npy`,
`faiss_index.index`, `metadata.json`, `pdf_hashes.json`; `none` = the file
does not exist. -/
structure Storage where
  docsF : Option (FileD (List Doc)) := none
  embF : Option (FileD (List Vec)) := none
  idxF : Option (FileD FaissIndex) := none
  metaF : Option (FileD Meta) := none
  hashF : Option (FileD (List (String × String))) := none
  deriving DecidableEq

/-- A PDF file of the source directory, reduced to its observable data: the
path, the text `extract_text_from_pdf` yields for it (already stripped; `""`
for an unreadable or empty file) and its content hash from `get_file_hash`. -/
structure PdfFile where
  path : String
  text : String
  hash : String
  deriving DecidableEq

/-- The hardcoded fallback set of `create_emergency_knowledge_base` (the
eleven builtin documents, which carry no score fields). -/
def createEmergencyKnowledgeBase : List Doc :=
  [{ category := "earthquake", title := "During Earthquake Safety",
     content := "Drop, Cover, and Hold On. Drop to your hands and knees, take cover under a sturdy desk or table, and hold on to your shelter. If no table is available, cover your head and neck with your arms. Stay away from windows, mirrors, and heavy objects that could fall.",
     source := "builtin", chunkId := 0 },
   { category := "earthquake", title := "After Earthquake Safety",
     content := "Check for injuries and provide first aid. Check for hazards like gas leaks, electrical damage, and structural damage. Do not use elevators. Be prepared for aftershocks. Stay out of damaged buildings.",
     source := "builtin", chunkId := 1 },
   { category := "flood", title := "Flood Safety Rules",
     content := "Never drive through flooded roads. Just 6 inches of moving water can knock you down, and 12 inches can carry away a vehicle. Turn Around, Don\x27t Drown. Move to higher ground immediately.",
     source := "builtin", chunkId := 2 },
   { category := "flood", title := "Flash Flood Response",
     content := "If caught in a flash flood while driving, abandon your vehicle immediately and move to higher ground. If trapped in a building, go to the highest floor but not the attic as you may become trapped by rising water.",
     source := "builtin", chunkId := 3 },
   { category := "first_aid", title := "Severe Bleeding Control",
     content := "Apply direct pressure to the wound with a clean cloth. If blood soaks through, add more layers without removing the first. Elevate the injured area above the heart if possible. Apply pressure to pressure points if bleeding doesn\x27t stop.",
     source := "builtin", chunkId := 4 },
   { category := "first_aid", title := "Shock Treatment",
     content := "Have the person lie down with feet elevated 8-12 inches unless head, neck, or back injury is suspected. Keep person warm with blankets. Do not give food or water. Monitor breathing and pulse. Get medical help immediately.",
     source := "builtin", chunkId := 5 },
   { category := "hurricane", title := "Hurricane Evacuation",
     content := "Evacuate immediately if ordered by authorities. Follow designated evacuation routes. Do not take shortcuts as they may be blocked. If you cannot evacuate, find a safe room away from windows on the lowest floor of a sturdy building.",
     source := "builtin", chunkId := 6 },
   { category := "wildfire", title := "Wildfire Evacuation",
     content := "Evacuate early when advised. Have multiple escape routes planned. Keep your vehicle fueled and ready. If trapped by wildfire, call 911 and find a body of water or cleared area. Lie face down and cover yourself with wet clothing or soil.",
     source := "builtin", chunkId := 7 },
   { category := "sri_lanka_specific", title := "Monsoon Safety Sri Lanka",
     content := "During monsoon season in Sri Lanka, avoid traveling through flood-prone areas like Kelani Valley and Gampaha. Monitor weather alerts from the Department of Meteorology. Prepare for power outages by keeping charged devices and backup power sources.",
     source := "builtin", chunkId := 8 },
   { category := "sri_lanka_specific", title := "Landslide Warning Signs Sri Lanka",
     content := "In hilly areas like Kandy, Nuwara Eliya, and Ratnapura, watch for landslide warning signs: cracks in ground, tilting trees, sudden changes in water flow. The National Building Research Organisation provides landslide risk maps for Sri Lankan areas.",
     source := "builtin", chunkId := 9 },
   { category := "communication", title := "Emergency Communication",
     content := "Keep battery-powered or hand-crank radio for emergency updates. Text messages often work when voice calls don\x27t. Register with Red Cross Safe and Well website. Have an out-of-state contact as a family communication hub.",
     source := "builtin", chunkId := 10 }]

/-- Python `pathlib.Path(p).stem`: final path component without its last
suffix.  (The dot-file corner of `Path.stem` does not arise: inputs come from
`glob("*.pdf")`.) -/
def pyStem (p : String) : String :=
  let base := (p.splitOn "/").getLastD p
  let parts := base.splitOn "."
  if parts.length ≤ 1 then base else String.intercalate "." parts.dropLast

/-- Python `str.rstrip(".")`. -/
def rstripDot (s : String) : String := s.dropRightWhile (fun c => c = '.')

/-- The chunk loop of `process_pdf_file`: `i` is the `enumerate` index (it
advances over skipped chunks too, so `chunk_id` keeps the positional index). -/
def processChunks (enc : Enc) (pdfPath pdfName : String)
    (forceCategory : Option String) : List String → Nat → List Doc
  | [], _ => []
  | chunk0 :: rest, i =>
    let chunk := chunk0.trim
    if chunk.length < 50 then processChunks enc pdfPath pdfName forceCategory rest (i + 1)
    else
      let rel := isEmergencyRelevantContent enc chunk
      if !rel.1 then processChunks enc pdfPath pdfName forceCategory rest (i + 1)
      else
        let catInfo : String × ℚ × Bool :=
          match forceCategory with
          | some fc =>
            if categoryNames.contains fc then (fc, 1, true)
            else determineContentCategory enc chunk
          | none => determineContentCategory enc chunk
        if !catInfo.2.2 then processChunks enc pdfPath pdfName forceCategory rest (i + 1)
        else
          let firstLine := (chunk.splitOn "\n").headD (pdfName ++ " - Part " ++ toString (i + 1))
          let title := rstripDot (firstLine.take 100).trim
          { category := catInfo.1, title := title, content := chunk,
            source := pdfName, chunkId := i, filePath := some pdfPath,
            relevanceScore := some rel.2, categoryConfidence := some catInfo.2.1 }
            :: processChunks enc pdfPath pdfName forceCategory rest (i + 1)

/-- Method `process_pdf_file(pdf_path, force_category)`.  `text` is what
`extract_text_from_pdf` returned (stripped; empty on failure); the splitter is
the external text splitter. -/
def processPdfFile (splitter : Splitter) (enc : Enc) (pdfPath text : String)
    (forceCategory : Option String) : List Doc :=
  if text.isEmpty then []
  else processChunks enc pdfPath (pyStem pdfPath) forceCategory (splitter text) 0

/-- Lookup in an association list modelling a Python dict keyed by path. -/
def lookupA (l : List (String × String)) (k : String) : Option String :=
  (l.find? (fun p => p.1 = k)).map (fun p => p.2)

/-- Method `load_pdf_hashes`: missing or unreadable ledger file yields `{}`. -/
def loadPdfHashes (st : Storage) : List (String × String) :=
  match st.hashF with
  | some (FileD.ok h) => h
  | _ => []

/-- Method `save_pdf_hashes` (its own write errors are swallowed). -/
def savePdfHashes (hashes : List (String × String)) (st : Storage) : Storage :=
  { st with hashF := some (FileD.ok hashes) }

/-- Method `process_all_pdfs(force_rebuild)`.  With no PDF files it returns
the builtin fallback set directly (before touching the hash ledger); otherwise
it processes the new/changed files, rewrites the ledger wholesale, and falls
back to the current in-memory documents or the builtin set when nothing
survived. -/
def processAllPdfs (splitter : Splitter) (enc : Enc) (pdfs : List PdfFile)
    (forceRebuild : Bool) (s : DBState) (st : Storage) : List Doc × Storage :=
  let savedHashes := loadPdfHashes st
  if pdfs.isEmpty then (createEmergencyKnowledgeBase, st)
  else
    let currentHashes := pdfs.map (fun p => (p.path, p.hash))
    let allDocuments := pdfs.foldl (fun acc p =>
      if forceRebuild || (lookupA savedHashes p.path).isNone
          || lookupA savedHashes p.path ≠ some p.hash then
        acc ++ processPdfFile splitter enc p.path p.text none
      else acc) []
    let st1 := savePdfHashes currentHashes st
    if allDocuments.isEmpty then
      if !s.documents.isEmpty then (s.documents, st1)
      else (createEmergencyKnowledgeBase, st1)
    else (allDocuments, st1)

/-- The per-document pass of `build_vector_database`: a document whose stored
scores already meet both thresholds passes through untouched; otherwise its
relevance and category are re-evaluated and it is dropped if either check
fails. -/
def buildFilterDoc (enc : Enc) (doc : Doc) : Option Doc :=
  if (match doc.relevanceScore with
      | some r => decide (contentRelevanceThreshold ≤ r)
      | none => false)
      && (match doc.categoryConfidence with
      | some c => decide (categorySimilarityThreshold ≤ c)
      | none => false) then
    some doc
  else
    let rel := isEmergencyRelevantContent enc doc.content
    if !rel.1 then none
    else
      let doc1 := { doc with relevanceScore := some rel.2 }
      let cat := determineContentCategory enc doc1.content
      if !cat.2.2 then none
      else some { doc1 with category := cat.1, categoryConfidence := some cat.2.1 }

/-- Dimension `embeddings.shape[1]` of a non-empty embedding matrix. -/
def headDim (vs : List Vec) : Nat := (vs.headD []).length

/-- Method `build_vector_database(documents, force_rebuild)`.  Mirrors the
source's order of effects: ingestion when no documents are supplied; failure
on an empty input; `self.documents = relevant_documents` BEFORE the emptiness
check and before the `try` block, so the document list is already replaced
when the batch embedding raises (modelled by `encodeAll … = none`); on
success the normalized embeddings are stored and a fresh `IndexFlatIP` is
filled with them in document order. -/
def buildVectorDatabase (enc : Enc) (splitter : Splitter) (pdfs : List PdfFile)
    (documents : Option (List Doc)) (forceRebuild : Bool)
    (s : DBState) (st : Storage) : Bool × DBState × Storage :=
  let ingest :=
    match documents with
    | some ds => (ds, st)
    | none => processAllPdfs splitter enc pdfs forceRebuild s st
  let docs := ingest.1
  let st1 := ingest.2
  if docs.isEmpty then (false, s, st1)
  else
    let relevantDocuments := docs.filterMap (buildFilterDoc enc)
    let s1 := { s with documents := relevantDocuments }
    if relevantDocuments.isEmpty then (false, s1, st1)
    else
      match encodeAll enc (relevantDocuments.map (fun d => d.content)) with
      | none => (false, s1, st1)
      | some embs =>
        (true,
         { s1 with
           embeddings := some embs
           index := some { dim := headDim embs, vecs := embs } },
         st1)

/-- The per-document pass of `add_documents_to_existing_db`: always
re-evaluates relevance and category (no stored-score short-circuit) and tags
the surviving document with all three fields. -/
def addFilterDoc (enc : Enc) (doc : Doc) : Option Doc :=
  let rel := isEmergencyRelevantContent enc doc.content
  if !rel.1 then none
  else
    let cat := determineContentCategory enc doc.content
    if !cat.2.2 then none
    else
      some { doc with
             relevanceScore := some rel.2
             category := cat.1
             categoryConfidence := some cat.2.1 }

/-- Method `add_documents_to_existing_db(new_documents)`.  As in the source,
`self.documents.extend(...)` happens inside the `try` BEFORE the embedding
call, so a raising batch encode leaves the document list already extended;
on success the new rows are appended to the matrix and the index (created
fresh when absent). -/
def addDocumentsToExistingDb (enc : Enc) (s : DBState) (newDocuments : List Doc) :
    Bool × DBState :=
  if newDocuments.isEmpty then (false, s)
  else
    let filteredDocuments := newDocuments.filterMap (addFilterDoc enc)
    if filteredDocuments.isEmpty then (false, s)
    else
      let s1 := { s with documents := s.documents ++ filteredDocuments }
      match encodeAll enc (filteredDocuments.map (fun d => d.content)) with
      | none => (false, s1)
      | some newEmbs =>
        let embs := match s1.embeddings with
          | some e => e ++ newEmbs
          | none => newEmbs
        let ix := match s1.index with
          | some ix => { ix with vecs := ix.vecs ++ newEmbs }
          | none => { dim := headDim newEmbs, vecs := newEmbs }
        (true, { s1 with embeddings := some embs, index := some ix })

/-- The `-FLT_MAX` similarity faiss reports for the padding entries it emits
when `k` exceeds the number of stored vectors. -/
def padScore : ℚ := -340282346638528859811704183484516925440

/-- Score every stored vector against the query, tagging each with its
insertion position (as the signed integer faiss labels use). -/
def scoreAux (qv : Vec) : List Vec → Nat → List (ℚ × Int)
  | [], _ => []
  | v :: vs, i => (dot qv v, (i : Int)) :: scoreAux qv vs (i + 1)

/-- Total order for ranking results: descending score, ties by insertion
order (the spec's documented faiss tie-break). -/
def scoreDescLe (a b : ℚ × Int) : Bool :=
  decide (b.1 < a.1) || (decide (a.1 = b.1) && decide (a.2 ≤ b.2))

/-- Insertion into a list sorted by `le`. -/
def insSorted (le : ℚ × Int → ℚ × Int → Bool) (x : ℚ × Int) :
    List (ℚ × Int) → List (ℚ × Int)
  | [] => [x]
  | y :: ys => if le x y then x :: y :: ys else y :: insSorted le x ys

/-- Sort scored positions by `scoreDescLe`. -/
def sortScores (l : List (ℚ × Int)) : List (ℚ × Int) :=
  l.foldr (insSorted scoreDescLe) []

/-- Operation `index.search(query_embedding, k)` of the faiss `IndexFlatIP`: the top
`min k ntotal` (score, label) pairs by descending inner product, padded with
`(-FLT_MAX, -1)` to exactly `k` entries when `k > ntotal`. -/
def indexSearch (ix : FaissIndex) (qv : Vec) (k : Nat) : List (ℚ × Int) :=
  let sorted := sortScores (scoreAux qv ix.vecs 0)
  sorted.take k ++ List.replicate (k - sorted.length) (padScore, -1)

/-- Python list indexing `docs[idx]` with a possibly negative index:
negative indices count from the end; `none` models the `IndexError` raised
when the index is out of range. -/
def pyIndex (docs : List Doc) (idx : Int) : Option Doc :=
  if 0 ≤ idx then docs.get? idx.toNat
  else if idx.natAbs ≤ docs.length then docs.get? (docs.length - idx.natAbs)
  else none

/-- The result loop of `search`: keep `(documents[idx], score)` for every
returned pair with `idx < len(documents)` (a signed comparison, so the `-1`
padding labels pass it), skip the rest; `none` models an `IndexError`
escaping from the indexing operation. -/
def searchLoop (docs : List Doc) : List (ℚ × Int) → Option (List (Doc × ℚ))
  | [] => some []
  | p :: rest =>
    if p.2 < (docs.length : Int) then
      match pyIndex docs p.2 with
      | none => none
      | some d =>
        match searchLoop docs rest with
        | none => none
        | some r => some ((d, p.1) :: r)
    else searchLoop docs rest

/-- Method `search(query, k)`.  No handler guards the body, so a raising
encoding call or indexing operation escapes (`none`); with no index the
method returns `[]` before anything can raise.  The state component of the
result is the post-call in-memory state. -/
def search (enc : Enc) (s : DBState) (query : String) (k : Nat) :
    Option (List (Doc × ℚ) × DBState) :=
  match s.index with
  | none => some ([], s)
  | some ix =>
    match enc query with
    | none => none
    | some qv =>
      match searchLoop s.documents (indexSearch ix qv k) with
      | none => none
      | some results => some (results, s)

/-- Count occurrences per key, preserving first-occurrence order (a Python
dict used as a counter). -/
def bumpCount (k : String) : List (String × Nat) → List (String × Nat)
  | [] => [(k, 1)]
  | (k2, n) :: rest => if k2 = k then (k2, n + 1) :: rest else (k2, n) :: bumpCount k rest

/-- Per-category document counts (the `category_counts` dict of
`print_category_distribution` / `get_database_stats`). -/
def categoryDistribution (docs : List Doc) : List (String × Nat) :=
  docs.foldl (fun acc d => bumpCount d.category acc) []

/-- Method `_get_source_breakdown`. -/
def sourceBreakdownOf (docs : List Doc) : List (String × Nat) :=
  docs.foldl (fun acc d => bumpCount d.source acc) []

/-- Dimension `embeddings.shape[1]` for the metadata manifest. -/
def embDim (e : List Vec) : Nat := (e.headD []).length

/-- Method `save_locally()`.  Writes the documents pickle, then the
embeddings array, then the faiss index, then the manifest, in the source's
order.  `faiss.write_index(None, …)` raises, so with no index the call fails
AFTER the first two files were already written; `np.save(None)` itself
succeeds but leaves a file the loader cannot read (`FileD.bad`).  `now` is
the external clock (`np.datetime64`). -/
def saveLocally (s : DBState) (now : String) (st : Storage) : Bool × Storage :=
  let st1 := { st with docsF := some (FileD.ok s.documents) }
  let st2 := { st1 with
               embF := some (match s.embeddings with
                 | some e => FileD.ok e
                 | none => FileD.bad) }
  match s.index with
  | none => (false, st2)
  | some ix =>
    let st3 := { st2 with idxF := some (FileD.ok ix) }
    let meta : Meta :=
      { modelName := "all-MiniLM-L6-v2"
        numDocuments := s.documents.length
        embeddingDimension := s.embeddings.map embDim
        createdAt := now
        sourceBreakdown := sourceBreakdownOf s.documents }
    (true, { st3 with metaF := some (FileD.ok meta) })

/-- Method `load_locally()`.  First requires all three data files to exist;
then deserializes and assigns documents, embeddings and index in that order
inside one `try`, so a failure part-way leaves the assignments already made
(the document list can be replaced while embeddings and index keep their old
values). -/
def loadLocally (s : DBState) (st : Storage) : Bool × DBState :=
  match st.docsF, st.embF, st.idxF with
  | some fd, some fe, some fi =>
    (match fd with
     | FileD.bad => (false, s)
     | FileD.ok docs =>
       let s1 := { s with documents := docs }
       match fe with
       | FileD.bad => (false, s1)
       | FileD.ok embs =>
         let s2 := { s1 with embeddings := some embs }
         match fi with
         | FileD.bad => (false, s2)
         | FileD.ok ix => (true, { s2 with index := some ix }))
  | _, _, _ => (false, s)

/-- Length is preserved by a successful batched encode. -/
theorem encodeAll_length (enc : Enc) :
    ∀ (ts : List String) (vs : List Vec), encodeAll enc ts = some vs → vs.length = ts.length := by
  intro ts
  induction ts with
  | nil => intro vs h; simp [encodeAll] at h; simp [← h]
  | cons t ts ih =>
    intro vs h
    simp only [encodeAll] at h
    cases ht : enc t with
    | none => rw [ht] at h; exact absurd h (by simp)
    | some v =>
      rw [ht] at h
      cases hts : encodeAll enc ts with
      | none => rw [hts] at h; exact absurd h (by simp)
      | some ws =>
        rw [hts] at h
        simp only [Option.some.injEq] at h
        subst h
        simp [ih ws hts]

/-- A batched encode of a concatenation is the concatenation of the batched
encodes, when both succeed. -/
theorem encodeAll_append (enc : Enc) (l1 l2 : List String) (v1 v2 : List Vec)
    (h1 : encodeAll enc l1 = some v1) (h2 : encodeAll enc l2 = some v2) :
    encodeAll enc (l1 ++ l2) = some (v1 ++ v2) := by
  induction l1 generalizing v1 with
  | nil =>
    simp only [encodeAll, Option.some.injEq] at h1
    subst h1
    simpa using h2
  | cons t ts ih =>
    simp only [encodeAll] at h1
    cases ht : enc t with
    | none => rw [ht] at h1; exact absurd h1 (by simp)
    | some v =>
      rw [ht] at h1
      cases hts : encodeAll enc ts with
      | none => rw [hts] at h1; exact absurd h1 (by simp)
      | some ws =>
        rw [hts] at h1
        simp only [Option.some.injEq] at h1
        subst h1
        rw [List.cons_append]
        simp only [encodeAll, ht, ih ws hts]
        rw [List.cons_append]

/-- A total encoder makes every batched encode succeed. -/
theorem encodeAll_isSome (enc : Enc) (hEnc : ∀ t, (enc t).isSome) :
    ∀ ts : List String, (encodeAll enc ts).isSome := by
  intro ts
  induction ts with
  | nil => simp [encodeAll]
  | cons t ts ih =>
    simp only [encodeAll]
    obtain ⟨v, hv⟩ := Option.isSome_iff_exists.mp (hEnc t)
    obtain ⟨vs, hvs⟩ := Option.isSome_iff_exists.mp ih
    rw [hv, hvs]
    simp

/-- The running maximum of `argmaxAux` dominates the seed and every element. -/
theorem argmaxAux_le (l : List ℚ) :
    ∀ best bi i, best ≤ (argmaxAux l best bi i).1 ∧ ∀ x ∈ l, x ≤ (argmaxAux l best bi i).1 := by
  induction l with
  | nil => intro best bi i; simp [argmaxAux]
  | cons y ys ih =>
    intro best bi i
    simp only [argmaxAux]
    by_cases h : best < y
    · simp only [if_pos h]
      obtain ⟨h1, h2⟩ := ih y i (i + 1)
      refine ⟨le_trans (le_of_lt h) h1, ?_⟩
      intro x hx
      rcases List.mem_cons.mp hx with hx | hx
      · exact hx ▸ h1
      · exact h2 x hx
    · simp only [if_neg h]
      obtain ⟨h1, h2⟩ := ih best bi (i + 1)
      refine ⟨h1, ?_⟩
      intro x hx
      rcases List.mem_cons.mp hx with hx | hx
      · exact hx ▸ le_trans (le_of_not_lt h) h1
      · exact h2 x hx

/-- The result of `argmaxAux` is the seed pair or a value of the list paired
with its absolute position. -/
theorem argmaxAux_index (l : List ℚ) :
    ∀ best bi i, argmaxAux l best bi i = (best, bi) ∨
      ∃ m, m < l.length ∧ (argmaxAux l best bi i).1 = l.getD m 0
        ∧ (argmaxAux l best bi i).2 = i + m := by
  induction l with
  | nil => intro best bi i; exact Or.inl rfl
  | cons y ys ih =>
    intro best bi i
    simp only [argmaxAux]
    by_cases h : best < y
    · simp only [if_pos h]
      right
      rcases ih y i (i + 1) with h0 | ⟨m, hm, h1, h2⟩
      · exact ⟨0, by simp, by simp [h0], by simp [h0]⟩
      · exact ⟨m + 1, by simpa using hm, by simpa using h1, by omega⟩
    · simp only [if_neg h]
      rcases ih best bi (i + 1) with h0 | ⟨m, hm, h1, h2⟩
      · exact Or.inl h0
      · exact Or.inr ⟨m + 1, by simpa using hm, by simpa using h1, by omega⟩

/-- On a non-empty list `argmaxPair` returns a position inside the list, the
value at that position, and that value is the maximum (`np.argmax` keeps the
first maximum). -/
theorem argmaxPair_spec (l : List ℚ) (hl : l ≠ []) :
    (argmaxPair l).2 < l.length ∧ (argmaxPair l).1 = l.getD (argmaxPair l).2 0
      ∧ ∀ x ∈ l, x ≤ (argmaxPair l).1 := by
  cases l with
  | nil => exact absurd rfl hl
  | cons y ys =>
    simp only [argmaxPair]
    have hle := argmaxAux_le ys y 0 1
    have hidx := argmaxAux_index ys y 0 1
    rcases hidx with h0 | ⟨m, hm, h1, h2⟩
    · refine ⟨by simp [h0], by simp [h0], ?_⟩
      intro x hx
      rcases List.mem_cons.mp hx with hx | hx
      · exact hx ▸ hle.1
      · exact hle.2 x hx
    · refine ⟨by simp [h2]; omega, ?_, ?_⟩
      · rw [h2, h1]
        have : 1 + m = m + 1 := by omega
        simp [this]
      · intro x hx
        rcases List.mem_cons.mp hx with hx | hx
        · exact hx ▸ hle.1
        · exact hle.2 x hx

/-- Concrete encoder for counterexamples: the text "c" gets the unit vector
(12/13, 3/13, 4/13), the canonical emergency description gets (1, 0, 0), and
every category description gets (0, 1, 0). -/
def encCat : Enc := fun s =>
  if s = "c" then some [12 / 13, 3 / 13, 4 / 13]
  else if s = emergencyDescription then some [1, 0, 0]
  else some [0, 1, 0]

/-- Concrete encoder for counterexamples: the canonical emergency description
gets (1, 0) and every other text gets (0, 1), so every semantic similarity
against the description is 0. -/
def encLex : Enc := fun s =>
  if s = emergencyDescription then some [1, 0] else some [0, 1]

/-- Concrete total encoder: everything maps to the vector (1). -/
def encOne : Enc := fun _ => some [1]

/-- C1 (amended).  `determine_content_category` returns the taxonomy category
whose description embedding has maximum dot-product similarity with the
embedding of the text (first maximum wins), with that maximum similarity as
the confidence; but the returned flag compares the confidence against
`content_relevance_threshold` (0.20), NOT against
`category_similarity_threshold` (0.30) as the claim states. -/
theorem c1_category_assignment (enc : Enc) (content : String) (v : Vec) (M : List Vec)
    (hv : enc content = some v) (hM : encodeAll enc categoryDescriptions = some M) :
    ∃ bi, bi < categoryNames.length ∧
      determineContentCategory enc content =
        (categoryNames.getD bi "emergency_guide",
          (M.map (fun w => dot v w)).getD bi 0,
          decide (contentRelevanceThreshold ≤ (M.map (fun w => dot v w)).getD bi 0))
      ∧ ∀ x ∈ M.map (fun w => dot v w), x ≤ (M.map (fun w => dot v w)).getD bi 0 := by
  have hlen : M.length = categoryDescriptions.length := encodeAll_length enc _ _ hM
  have hdesc : categoryDescriptions.length = 10 := rfl
  have hMne : M.map (fun w => dot v w) ≠ [] := by
    intro h
    have h2 := congrArg List.length h
    simp only [List.length_map, List.length_nil] at h2
    rw [hlen, hdesc] at h2
    exact absurd h2 (by decide)
  obtain ⟨hlt, hval, hmax⟩ := argmaxPair_spec (M.map (fun w => dot v w)) hMne
  refine ⟨(argmaxPair (M.map (fun w => dot v w))).2, ?_, ?_, ?_⟩
  · have h1 : categoryNames.length = 10 := rfl
    have h2 : (M.map (fun w => dot v w)).length = 10 := by
      simp [hlen, hdesc]
    rw [h1]
    rw [h2] at hlt
    exact hlt
  · simp only [determineContentCategory, hv, hM]
    rw [hval]
  · intro x hx
    exact hval ▸ hmax x hx

/-- Witness for C1: the amended theorem applied to the concrete total encoder
`encOne` and the text "x". -/
theorem c1_category_assignment_witness :
    encOne "x" = some [1]
    ∧ encodeAll encOne categoryDescriptions = some (List.replicate 10 [1])
    ∧ ∃ bi, bi < categoryNames.length ∧
        determineContentCategory encOne "x" =
          (categoryNames.getD bi "emergency_guide",
            ((List.replicate 10 ((1 : ℚ) :: [])).map (fun w => dot [1] w)).getD bi 0,
            decide (contentRelevanceThreshold ≤
              ((List.replicate 10 ((1 : ℚ) :: [])).map (fun w => dot [1] w)).getD bi 0))
        ∧ ∀ x ∈ (List.replicate 10 ((1 : ℚ) :: [])).map (fun w => dot [1] w),
            x ≤ ((List.replicate 10 ((1 : ℚ) :: [])).map (fun w => dot [1] w)).getD bi 0 :=
  ⟨rfl, by with_unfolding_all decide,
    c1_category_assignment encOne "x" [1] (List.replicate 10 [1]) rfl
      (by with_unfolding_all decide)⟩

/-- Counterexample to C1 as stated: under the encoder `encCat` the text "c"
has maximal category similarity 3/13 ≈ 0.2308, strictly below
`category_similarity_threshold = 0.30`, yet the returned
`is_category_relevant` flag is `true` (the code gates on
`content_relevance_threshold = 0.20`), so the claimed "flag iff confidence ≥
0.30" is false here. -/
theorem c1_counterexample :
    determineContentCategory encCat "c" = ("earthquake", 3 / 13, true)
    ∧ ¬ categorySimilarityThreshold ≤ (3 : ℚ) / 13 := by
  constructor
  · with_unfolding_all decide
  · with_unfolding_all decide

/-- Modelled from the spec (for comparison with the source only): the spec's
lexical percentage, "fraction of words in `text` that exactly match (via
substring containment, case-insensitive) any of a fixed list of
emergency-domain keywords, expressed as a percentage of total words". -/
def specLexicalPercentage (text : String) : ℚ :=
  let words := pyWords (pyLower text)
  if words.length = 0 then 0
  else ((words.filter (fun w => emergencyKeywords.any (fun kw => strContainsSub w kw))).length : ℚ)
    / (words.length : ℚ) * 100

/-- C7 (amended).  For a text with at least one word (and a non-raising
encoder) the relevance check returns the blended score
`0.3 * (lexical_percentage / 100) + 0.7 * semantic_similarity` and the flag
`score ≥ content_relevance_threshold`; for zero words it returns
`(false, 0)`.  However `lexical_percentage` is the number of KEYWORDS of the
fixed list occurring as substrings of the lowered text divided by the total
word count (times 100) — not the fraction of words matching a keyword as the
claim states. -/
theorem c7_relevance_blend (enc : Enc) (text : String) (cv ev : Vec) :
    (pyWords (pyLower text) = [] → isEmergencyRelevantContent enc text = (false, 0))
    ∧ (pyWords (pyLower text) ≠ [] → enc text = some cv →
        enc emergencyDescription = some ev →
        isEmergencyRelevantContent enc text =
          (decide (contentRelevanceThreshold ≤
              (keywordMatches (pyLower text) : ℚ) / ((pyWords (pyLower text)).length : ℚ)
                * 100 / 100 * (3 / 10) + dot cv ev * (7 / 10)),
            (keywordMatches (pyLower text) : ℚ) / ((pyWords (pyLower text)).length : ℚ)
              * 100 / 100 * (3 / 10) + dot cv ev * (7 / 10))) := by
  constructor
  · intro h
    simp [isEmergencyRelevantContent, h]
  · intro h hcv hev
    have hlen : ¬ (pyWords (pyLower text)).length = 0 :=
      fun h0 => h (List.length_eq_zero.mp h0)
    simp [isEmergencyRelevantContent, hlen, hcv, hev]

/-- Witness for C7: the amended theorem applied to the concrete encoder
`encLex` and the text "fire fire" (two words, lexical percentage 50, semantic
similarity 0, blended score 3/20, not relevant). -/
theorem c7_relevance_blend_witness :
    pyWords (pyLower "fire fire") ≠ []
    ∧ encLex "fire fire" = some [0, 1]
    ∧ encLex emergencyDescription = some [1, 0]
    ∧ isEmergencyRelevantContent encLex "fire fire" =
        (decide (contentRelevanceThreshold ≤
            (keywordMatches (pyLower "fire fire") : ℚ)
              / ((pyWords (pyLower "fire fire")).length : ℚ)
              * 100 / 100 * (3 / 10) + dot [0, 1] [1, 0] * (7 / 10)),
          (keywordMatches (pyLower "fire fire") : ℚ)
            / ((pyWords (pyLower "fire fire")).length : ℚ)
            * 100 / 100 * (3 / 10) + dot [0, 1] [1, 0] * (7 / 10)) :=
  ⟨by with_unfolding_all decide, by with_unfolding_all decide,
    by with_unfolding_all decide,
    (c7_relevance_blend encLex "fire fire" [0, 1] [1, 0]).2
      (by with_unfolding_all decide) (by with_unfolding_all decide)
      (by with_unfolding_all decide)⟩

/-- Counterexample to C7 as stated: for the text "fire fire" under `encLex`
(semantic similarity 0) the spec's "fraction of words that match" lexical
percentage is 100, so the claimed blended score is `0.3 * 1 + 0.7 * 0 = 0.3`
and the claim predicts "relevant"; the code counts the single keyword "fire"
once over two words (lexical percentage 50), returns score 3/20 = 0.15 and
"not relevant". -/
theorem c7_counterexample :
    isEmergencyRelevantContent encLex "fire fire" = (false, 3 / 20)
    ∧ specLexicalPercentage "fire fire" = 100
    ∧ encLex "fire fire" = some [0, 1]
    ∧ encLex emergencyDescription = some [1, 0]
    ∧ dot [0, 1] [1, 0] = 0
    ∧ (100 : ℚ) / 100 * (3 / 10) + 0 * (7 / 10) = 3 / 10
    ∧ (3 : ℚ) / 20 ≠ 3 / 10
    ∧ contentRelevanceThreshold ≤ (3 : ℚ) / 10
    ∧ ¬ contentRelevanceThreshold ≤ (3 : ℚ) / 20 := by
  refine ⟨?_, ?_, ?_, ?_, ?_, ?_, ?_, ?_, ?_⟩ <;> with_unfolding_all decide

/-- Both stored scores of a document exist and are at least
`content_relevance_threshold` (= 0.20). -/
def scoreOkD (d : Doc) : Prop :=
  (∃ r, d.relevanceScore = some r ∧ contentRelevanceThreshold ≤ r)
  ∧ (∃ c, d.categoryConfidence = some c ∧ contentRelevanceThreshold ≤ c)

/-- With a non-raising encoder, a passed relevance check bounds the returned
score by the threshold. -/
theorem isEmergency_true_ge (enc : Enc) (content : String)
    (hEnc : ∀ t, (enc t).isSome) (h1 : (isEmergencyRelevantContent enc content).1 = true) :
    contentRelevanceThreshold ≤ (isEmergencyRelevantContent enc content).2 := by
  obtain ⟨cv, hcv⟩ := Option.isSome_iff_exists.mp (hEnc content)
  obtain ⟨ev, hev⟩ := Option.isSome_iff_exists.mp (hEnc emergencyDescription)
  by_cases h : (pyWords (pyLower content)).length = 0
  · simp [isEmergencyRelevantContent, h] at h1
  · simp only [isEmergencyRelevantContent, h, hcv, hev, if_neg h] at h1 ⊢
    exact of_decide_eq_true h1

/-- With a non-raising encoder, a passed category check bounds the returned
confidence by `content_relevance_threshold` (which is the threshold the code
actually uses there). -/
theorem determine_true_ge (enc : Enc) (content : String)
    (hEnc : ∀ t, (enc t).isSome) (h1 : (determineContentCategory enc content).2.2 = true) :
    contentRelevanceThreshold ≤ (determineContentCategory enc content).2.1 := by
  obtain ⟨cv, hcv⟩ := Option.isSome_iff_exists.mp (hEnc content)
  obtain ⟨M, hM⟩ := Option.isSome_iff_exists.mp
    (encodeAll_isSome enc hEnc categoryDescriptions)
  simp only [determineContentCategory, hcv, hM] at h1 ⊢
  exact of_decide_eq_true h1

/-- Every document surviving the build-time filter pass carries both scores,
bounded below by 0.20 (for a non-raising encoder). -/
theorem buildFilterDoc_scoreOk (enc : Enc) (hEnc : ∀ t, (enc t).isSome) (d0 d : Doc)
    (h : buildFilterDoc enc d0 = some d) : scoreOkD d := by
  have hthr : contentRelevanceThreshold ≤ categorySimilarityThreshold := by
    with_unfolding_all decide
  simp only [buildFilterDoc] at h
  split at h
  · next hcond =>
    simp only [Bool.and_eq_true] at hcond
    obtain ⟨hc1, hc2⟩ := hcond
    injection h with hd
    subst hd
    constructor
    · cases hr : d0.relevanceScore with
      | none => rw [hr] at hc1; exact absurd hc1 (by simp)
      | some r => rw [hr] at hc1; exact ⟨r, rfl, of_decide_eq_true hc1⟩
    · cases hc : d0.categoryConfidence with
      | none => rw [hc] at hc2; exact absurd hc2 (by simp)
      | some c =>
        rw [hc] at hc2
        exact ⟨c, rfl, le_trans hthr (of_decide_eq_true hc2)⟩
  · next =>
    split at h
    · exact absurd h (by simp)
    · next hrel =>
      split at h
      · exact absurd h (by simp)
      · next hcat =>
        have hrel1 : (isEmergencyRelevantContent enc d0.content).1 = true := by
          revert hrel; cases (isEmergencyRelevantContent enc d0.content).1 <;> simp
        have hcat1 : (determineContentCategory enc d0.content).2.2 = true := by
          revert hcat; cases (determineContentCategory enc d0.content).2.2 <;> simp
        injection h with hd
        subst hd
        exact ⟨⟨_, rfl, isEmergency_true_ge enc d0.content hEnc hrel1⟩,
               ⟨_, rfl, determine_true_ge enc d0.content hEnc hcat1⟩⟩

/-- Every document surviving the incremental-add filter pass carries both
scores, bounded below by 0.20 (for a non-raising encoder). -/
theorem addFilterDoc_scoreOk (enc : Enc) (hEnc : ∀ t, (enc t).isSome) (d0 d : Doc)
    (h : addFilterDoc enc d0 = some d) : scoreOkD d := by
  simp only [addFilterDoc] at h
  split at h
  · exact absurd h (by simp)
  · next hrel =>
    split at h
    · exact absurd h (by simp)
    · next hcat =>
      have hrel1 : (isEmergencyRelevantContent enc d0.content).1 = true := by
        revert hrel; cases (isEmergencyRelevantContent enc d0.content).1 <;> simp
      have hcat1 : (determineContentCategory enc d0.content).2.2 = true := by
        revert hcat; cases (determineContentCategory enc d0.content).2.2 <;> simp
      injection h with hd
      subst hd
      exact ⟨⟨_, rfl, isEmergency_true_ge enc d0.content hEnc hrel1⟩,
             ⟨_, rfl, determine_true_ge enc d0.content hEnc hcat1⟩⟩

/-- Characterisation of a successful `build_vector_database` call: the final
documents are the filtered incoming documents, the embeddings are their
batch-encoded contents, and the fresh index holds exactly those vectors. -/
theorem build_success_state (enc : Enc) (splitter : Splitter) (pdfs : List PdfFile)
    (docsArg : Option (List Doc)) (fr : Bool) (s : DBState) (st : Storage)
    (ok : Bool) (s2 : DBState) (st2 : Storage)
    (h : buildVectorDatabase enc splitter pdfs docsArg fr s st = (ok, s2, st2))
    (hok : ok = true) :
    ∃ docs embs,
      (docsArg = some docs ∨
        (docsArg = none ∧ docs = (processAllPdfs splitter enc pdfs fr s st).1))
      ∧ s2.documents = docs.filterMap (buildFilterDoc enc)
      ∧ encodeAll enc ((docs.filterMap (buildFilterDoc enc)).map (fun d => d.content))
          = some embs
      ∧ s2.embeddings = some embs
      ∧ s2.index = some { dim := headDim embs, vecs := embs } := by
  subst hok
  rcases docsArg with _ | docs0
  · -- docsArg = none
    simp only [buildVectorDatabase] at h
    refine ⟨(processAllPdfs splitter enc pdfs fr s st).1, ?_⟩
    split at h
    · exact absurd (congrArg Prod.fst h) (by simp)
    · split at h
      · exact absurd (congrArg Prod.fst h) (by simp)
      · split at h
        · exact absurd (congrArg Prod.fst h) (by simp)
        · next embs hembs =>
          have h2 := congrArg (fun p => p.2.1) h
          simp only at h2
          exact ⟨embs, Or.inr ⟨rfl, rfl⟩, by rw [← h2], hembs, by rw [← h2], by rw [← h2]⟩
  · -- docsArg = some docs0
    simp only [buildVectorDatabase] at h
    refine ⟨docs0, ?_⟩
    split at h
    · exact absurd (congrArg Prod.fst h) (by simp)
    · split at h
      · exact absurd (congrArg Prod.fst h) (by simp)
      · split at h
        · exact absurd (congrArg Prod.fst h) (by simp)
        · next embs hembs =>
          have h2 := congrArg (fun p => p.2.1) h
          simp only at h2
          exact ⟨embs, Or.inl rfl, by rw [← h2], hembs, by rw [← h2], by rw [← h2]⟩

/-- Characterisation of a successful `add_documents_to_existing_db` call:
the filtered new documents are appended to the list, their embeddings to the
matrix (created fresh when absent) and to the index vectors. -/
theorem add_success_state (enc : Enc) (s : DBState) (nd : List Doc)
    (ok : Bool) (s2 : DBState)
    (h : addDocumentsToExistingDb enc s nd = (ok, s2)) (hok : ok = true) :
    ∃ embs,
      s2.documents = s.documents ++ nd.filterMap (addFilterDoc enc)
      ∧ encodeAll enc ((nd.filterMap (addFilterDoc enc)).map (fun d => d.content))
          = some embs
      ∧ s2.embeddings = some (s.embeddings.getD [] ++ embs)
      ∧ ∃ ix2, s2.index = some ix2
          ∧ ix2.vecs = ((s.index.map FaissIndex.vecs).getD []) ++ embs := by
  subst hok
  simp only [addDocumentsToExistingDb] at h
  split at h
  · exact absurd (congrArg Prod.fst h) (by simp)
  · split at h
    · exact absurd (congrArg Prod.fst h) (by simp)
    · split at h
      · exact absurd (congrArg Prod.fst h) (by simp)
      · next embs hembs =>
        have h2 := congrArg Prod.snd h
        simp only at h2
        refine ⟨embs, by rw [← h2], hembs, ?_, ?_⟩
        · rw [← h2]
          cases he : s.embeddings <;> simp [he]
        · rw [← h2]
          cases hi : s.index <;> simp [hi]

/-- C2 (amended).  With a non-raising encoder, after a successful build or
incremental add every in-memory document outside the builtin fallback set has
`relevance_score ≥ content_relevance_threshold` (0.20) and
`category_confidence ≥ content_relevance_threshold` (0.20) — the
category-confidence bound is 0.20, not the claimed
`category_similarity_threshold` (0.30), because `determine_content_category`
gates on the relevance threshold. -/
theorem c2_threshold_invariant :
    (∀ (enc : Enc) (splitter : Splitter) (pdfs : List PdfFile)
        (docsArg : Option (List Doc)) (fr : Bool) (s : DBState) (st : Storage)
        (ok : Bool) (s2 : DBState) (st2 : Storage),
      (∀ t, (enc t).isSome) →
      buildVectorDatabase enc splitter pdfs docsArg fr s st = (ok, s2, st2) →
      ok = true → ∀ d ∈ s2.documents, d.source ≠ "builtin" → scoreOkD d)
    ∧ (∀ (enc : Enc) (s : DBState) (nd : List Doc) (ok : Bool) (s2 : DBState),
      (∀ t, (enc t).isSome) →
      (∀ d ∈ s.documents, d.source ≠ "builtin" → scoreOkD d) →
      addDocumentsToExistingDb enc s nd = (ok, s2) →
      ok = true → ∀ d ∈ s2.documents, d.source ≠ "builtin" → scoreOkD d) := by
  constructor
  · intro enc splitter pdfs docsArg fr s st ok s2 st2 hEnc h hok d hd _
    obtain ⟨docs, embs, -, hdocs, -, -, -⟩ :=
      build_success_state enc splitter pdfs docsArg fr s st ok s2 st2 h hok
    rw [hdocs] at hd
    obtain ⟨d0, -, hfd⟩ := List.mem_filterMap.mp hd
    exact buildFilterDoc_scoreOk enc hEnc d0 d hfd
  · intro enc s nd ok s2 hEnc hold h hok d hd hsrc
    obtain ⟨embs, hdocs, -, -, -⟩ := add_success_state enc s nd ok s2 h hok
    rw [hdocs] at hd
    rcases List.mem_append.mp hd with hd | hd
    · exact hold d hd hsrc
    · obtain ⟨d0, -, hfd⟩ := List.mem_filterMap.mp hd
      exact addFilterDoc_scoreOk enc hEnc d0 d hfd

/-- The empty in-memory state (a freshly constructed instance). -/
def dbEmpty : DBState := { documents := [], embeddings := none, index := none }

/-- An empty storage directory. -/
def stEmpty : Storage := {}

/-- A trivial splitter standing in for the external text splitter where the
ingestion path is not exercised. -/
def splitId : Splitter := fun t => [t]

/-- A pre-scored document that takes the pass-through branch of the build
filter (both stored scores meet the thresholds). -/
def docGood : Doc :=
  { category := "flood", title := "t", content := "good content", source := "src",
    chunkId := 0, relevanceScore := some 1, categoryConfidence := some 1 }

/-- Witness for C2: the build half of the invariant applied to a concrete
successful build over `docGood` with the total encoder `encOne`. -/
theorem c2_threshold_invariant_witness :
    (∀ t, (encOne t).isSome)
    ∧ buildVectorDatabase encOne splitId [] (some [docGood]) false dbEmpty stEmpty
        = (true, { documents := [docGood], embeddings := some [[1]],
                   index := some { dim := 1, vecs := [[1]] } }, stEmpty)
    ∧ ∀ d ∈ ({ documents := [docGood], embeddings := some [[1]],
               index := some { dim := 1, vecs := [[1]] } } : DBState).documents,
        d.source ≠ "builtin" → scoreOkD d :=
  ⟨fun _ => rfl, by with_unfolding_all decide,
    c2_threshold_invariant.1 encOne splitId [] (some [docGood]) false dbEmpty stEmpty
      true _ stEmpty (fun _ => rfl) (by with_unfolding_all decide) rfl⟩

/-- An unscored document whose content "c" is the probe text of `encCat`. -/
def docC : Doc :=
  { category := "x", title := "t", content := "c", source := "src", chunkId := 0 }

/-- The document as it is persisted by the counterexample build: relevance
42/65 ≈ 0.646, category confidence 3/13 ≈ 0.2308 < 0.30. -/
def docCOut : Doc :=
  { category := "earthquake", title := "t", content := "c", source := "src",
    chunkId := 0, relevanceScore := some (42 / 65), categoryConfidence := some (3 / 13) }

/-- Counterexample to C2 as stated: a successful build persists the
non-builtin document `docCOut` whose `category_confidence` is 3/13, strictly
below `category_similarity_threshold = 0.30`. -/
theorem c2_counterexample :
    buildVectorDatabase encCat splitId [] (some [docC]) false dbEmpty stEmpty
      = (true, { documents := [docCOut],
                 embeddings := some [[12 / 13, 3 / 13, 4 / 13]],
                 index := some { dim := 3, vecs := [[12 / 13, 3 / 13, 4 / 13]] } },
          stEmpty)
    ∧ docCOut.source ≠ "builtin"
    ∧ docCOut.categoryConfidence = some ((3 : ℚ) / 13)
    ∧ ¬ categorySimilarityThreshold ≤ (3 : ℚ) / 13 := by
  refine ⟨?_, ?_, ?_, ?_⟩ <;> with_unfolding_all decide

/-- Ingestion never yields an empty list: with no PDF files, and when nothing
survives processing, it falls back to the existing documents or the builtin
set. -/
theorem processAllPdfs_ne_nil (splitter : Splitter) (enc : Enc) (pdfs : List PdfFile)
    (fr : Bool) (s : DBState) (st : Storage) :
    (processAllPdfs splitter enc pdfs fr s st).1 ≠ [] := by
  simp only [processAllPdfs]
  split
  · show createEmergencyKnowledgeBase ≠ []
    with_unfolding_all decide
  · split
    · split
      · next hne =>
        show s.documents ≠ []
        intro hnil
        rw [hnil] at hne
        simp at hne
      · show createEmergencyKnowledgeBase ≠ []
        with_unfolding_all decide
    · next hne =>
      intro hnil
      exact hne (by simpa using congrArg List.isEmpty hnil)

/-- An encoder that always raises. -/
def encNone : Enc := fun _ => none

/-- C3 (amended).  `build_vector_database` is a failing no-op on an
explicitly supplied empty list, and the ingested list is never empty; but it
is NOT failure-atomic: when the batch embedding raises, the call returns
failure with the embedding matrix and the index untouched while the
in-memory document list has already been replaced by the filtered incoming
list. -/
theorem c3_failure_atomicity :
    (∀ (enc : Enc) (splitter : Splitter) (pdfs : List PdfFile) (fr : Bool)
        (s : DBState) (st : Storage),
      buildVectorDatabase enc splitter pdfs (some []) fr s st = (false, s, st))
    ∧ (∀ (splitter : Splitter) (enc : Enc) (pdfs : List PdfFile) (fr : Bool)
        (s : DBState) (st : Storage),
      (processAllPdfs splitter enc pdfs fr s st).1 ≠ [])
    ∧ (∀ (enc : Enc) (splitter : Splitter) (pdfs : List PdfFile) (fr : Bool)
        (docs : List Doc) (s : DBState) (st : Storage),
      docs ≠ [] →
      docs.filterMap (buildFilterDoc enc) ≠ [] →
      encodeAll enc ((docs.filterMap (buildFilterDoc enc)).map (fun d => d.content)) = none →
      buildVectorDatabase enc splitter pdfs (some docs) fr s st
        = (false, { s with documents := docs.filterMap (buildFilterDoc enc) }, st)) := by
  refine ⟨fun enc splitter pdfs fr s st => rfl, processAllPdfs_ne_nil, ?_⟩
  intro enc splitter pdfs fr docs s st hne hrel henc
  rcases docs with _ | ⟨d, ds⟩
  · exact absurd rfl hne
  · simp only [buildVectorDatabase, List.isEmpty_cons, Bool.false_eq_true, if_false]
    split
    · next hfm =>
      exact absurd (by simpa using hfm) hrel
    · split
      · rfl
      · next embs hembs => rw [henc] at hembs; exact absurd hembs (by simp)

/-- A document already present in memory before the counterexample build. -/
def docOld : Doc :=
  { category := "flood", title := "old", content := "old content", source := "old",
    chunkId := 0 }

/-- A populated in-memory state (one document, its embedding, its index). -/
def dbFull : DBState :=
  { documents := [docOld], embeddings := some [[1]],
    index := some { dim := 1, vecs := [[1]] } }

/-- Witness for C3: the exception branch of the amended theorem applied to a
raising encoder and the pre-scored document `docGood`. -/
theorem c3_failure_atomicity_witness :
    ([docGood] : List Doc) ≠ []
    ∧ [docGood].filterMap (buildFilterDoc encNone) ≠ []
    ∧ encodeAll encNone
        (([docGood].filterMap (buildFilterDoc encNone)).map (fun d => d.content)) = none
    ∧ buildVectorDatabase encNone splitId [] (some [docGood]) false dbFull stEmpty
        = (false, { dbFull with documents := [docGood].filterMap (buildFilterDoc encNone) },
            stEmpty) :=
  ⟨by with_unfolding_all decide, by with_unfolding_all decide,
    by with_unfolding_all decide,
    c3_failure_atomicity.2.2 encNone splitId [] false [docGood] dbFull stEmpty
      (by with_unfolding_all decide) (by with_unfolding_all decide)
      (by with_unfolding_all decide)⟩

/-- Counterexample to C3 as stated: starting from the in-memory state
`dbFull` (document list `[docOld]`), a build over `[docGood]` whose batch
embedding raises returns failure — but the in-memory document list has been
replaced by `[docGood]`, so the previous state was NOT left untouched. -/
theorem c3_counterexample :
    buildVectorDatabase encNone splitId [] (some [docGood]) false dbFull stEmpty
      = (false, { documents := [docGood], embeddings := some [[1]],
                  index := some { dim := 1, vecs := [[1]] } }, stEmpty)
    ∧ dbFull.documents = [docOld]
    ∧ ([docGood] : List Doc) ≠ [docOld] := by
  refine ⟨?_, ?_, ?_⟩ <;> with_unfolding_all decide

/-- Characterisation of `build_vector_database` on an explicitly supplied
non-empty document list: success iff the filter pass keeps something and the
batch embedding succeeds; on success the in-memory documents are exactly the
filtered list and an index exists. -/
theorem build_some_characterisation (enc : Enc) (splitter : Splitter)
    (pdfs : List PdfFile) (docs : List Doc) (fr : Bool) (s : DBState) (st : Storage)
    (ok : Bool) (s2 : DBState) (st2 : Storage)
    (h : buildVectorDatabase enc splitter pdfs (some docs) fr s st = (ok, s2, st2))
    (hne : docs ≠ []) :
    (ok = true ↔ docs.filterMap (buildFilterDoc enc) ≠ []
      ∧ (encodeAll enc
          ((docs.filterMap (buildFilterDoc enc)).map (fun d => d.content))).isSome)
    ∧ (ok = true → s2.documents = docs.filterMap (buildFilterDoc enc)
        ∧ s2.index.isSome) := by
  rcases docs with _ | ⟨d, ds⟩
  · exact absurd rfl hne
  · simp only [buildVectorDatabase, List.isEmpty_cons, Bool.false_eq_true, if_false] at h
    split at h
    · next hfm =>
      have hok : ok = false := (congrArg Prod.fst h).symm
      subst hok
      constructor
      · simp only [Bool.false_eq_true, false_iff]
        rintro ⟨hc, -⟩
        exact hc (by simpa using hfm)
      · intro hcontra; exact absurd hcontra (by simp)
    · next hfm =>
      split at h
      · next henc =>
        have hok : ok = false := (congrArg Prod.fst h).symm
        subst hok
        constructor
        · simp only [Bool.false_eq_true, false_iff]
          rintro ⟨-, hc⟩
          rw [henc] at hc
          exact absurd hc (by simp)
        · intro hcontra; exact absurd hcontra (by simp)
      · next embs henc =>
        have hok : ok = true := (congrArg Prod.fst h).symm
        subst hok
        have h2 := congrArg (fun p => p.2.1) h
        simp only at h2
        refine ⟨?_, fun _ => ⟨by rw [← h2], by rw [← h2]; simp⟩⟩
        simp only [true_iff]
        exact ⟨by simpa using hfm, by rw [henc]; simp⟩

/-- C4 (amended).  With no eligible PDF files and no explicit documents,
`build_vector_database` does ingest the builtin fallback set (which is
non-empty) — but the standard relevance/category filtering IS applied to
those fallback documents by the build pass, and the resulting knowledge base
is non-empty and searchable iff at least one fallback document survives the
filter and the batch embedding succeeds. -/
theorem c4_fallback (enc : Enc) (splitter : Splitter) (fr : Bool)
    (s : DBState) (st : Storage) (ok : Bool) (s2 : DBState) (st2 : Storage)
    (h : buildVectorDatabase enc splitter [] none fr s st = (ok, s2, st2)) :
    (processAllPdfs splitter enc [] fr s st).1 = createEmergencyKnowledgeBase
    ∧ createEmergencyKnowledgeBase ≠ []
    ∧ (ok = true ↔ createEmergencyKnowledgeBase.filterMap (buildFilterDoc enc) ≠ []
        ∧ (encodeAll enc ((createEmergencyKnowledgeBase.filterMap
            (buildFilterDoc enc)).map (fun d => d.content))).isSome)
    ∧ (ok = true → s2.documents = createEmergencyKnowledgeBase.filterMap (buildFilterDoc enc)
        ∧ s2.index.isSome) := by
  have h' : buildVectorDatabase enc splitter [] (some createEmergencyKnowledgeBase) fr s st
      = (ok, s2, st2) := h
  obtain ⟨h1, h2⟩ := build_some_characterisation enc splitter [] createEmergencyKnowledgeBase
    fr s st ok s2 st2 h' (by with_unfolding_all decide)
  exact ⟨rfl, by with_unfolding_all decide, h1, h2⟩

/-- Witness for C4: the amended theorem applied to the total encoder
`encOne`, under which every fallback document passes the filter and the
build succeeds. -/
theorem c4_fallback_witness :
    (processAllPdfs splitId encOne [] false dbEmpty stEmpty).1 = createEmergencyKnowledgeBase
    ∧ createEmergencyKnowledgeBase ≠ []
    ∧ ((buildVectorDatabase encOne splitId [] none false dbEmpty stEmpty).1 = true ↔
        createEmergencyKnowledgeBase.filterMap (buildFilterDoc encOne) ≠ []
        ∧ (encodeAll encOne ((createEmergencyKnowledgeBase.filterMap
            (buildFilterDoc encOne)).map (fun d => d.content))).isSome)
    ∧ ((buildVectorDatabase encOne splitId [] none false dbEmpty stEmpty).1 = true →
        (buildVectorDatabase encOne splitId [] none false dbEmpty stEmpty).2.1.documents
          = createEmergencyKnowledgeBase.filterMap (buildFilterDoc encOne)
        ∧ (buildVectorDatabase encOne splitId [] none false dbEmpty stEmpty).2.1.index.isSome) :=
  c4_fallback encOne splitId false dbEmpty stEmpty _ _ _ rfl

set_option maxRecDepth 8000 in
/-- Counterexample to C4 as stated: under the encoder `encLex` (semantic
similarity 0 for every text) all eleven builtin fallback documents are
filtered out by the build pass — filtering IS applied to them — and the
build over an empty source directory fails, leaving an empty, unsearchable
document list instead of the claimed non-empty knowledge base. -/
theorem c4_counterexample :
    buildVectorDatabase encLex splitId [] none false dbEmpty stEmpty
      = (false, dbEmpty, stEmpty)
    ∧ createEmergencyKnowledgeBase ≠ []
    ∧ createEmergencyKnowledgeBase.filterMap (buildFilterDoc encLex) = []
    ∧ dbEmpty.documents = [] := by
  refine ⟨?_, ?_, ?_, ?_⟩ <;> with_unfolding_all decide

/-- C5 (amended).  `load_locally` fails without mutating anything when any of
the three required files is missing; but a failure AFTER the existence check
can leave earlier deserialisation steps applied: with a readable documents
file and an unreadable embeddings file the call fails with the in-memory
document list already replaced (load can partially apply). -/
theorem c5_load_atomicity :
    (∀ (s : DBState) (st : Storage),
      st.docsF = none ∨ st.embF = none ∨ st.idxF = none →
      loadLocally s st = (false, s))
    ∧ (∀ (s : DBState) (st : Storage) (docs : List Doc),
      st.docsF = some (FileD.ok docs) → st.embF = some FileD.bad →
      st.idxF.isSome →
      loadLocally s st = (false, { s with documents := docs })) := by
  constructor
  · intro s st h
    obtain ⟨df, ef, xf, mf, hf⟩ := st
    rcases h with h | h | h
    · obtain rfl : df = none := h
      rfl
    · obtain rfl : ef = none := h
      cases df <;> rfl
    · obtain rfl : xf = none := h
      cases df <;> cases ef <;> rfl
  · intro s st docs h1 h2 h3
    obtain ⟨df, ef, xf, mf, hf⟩ := st
    obtain rfl : df = some (FileD.ok docs) := h1
    obtain rfl : ef = some FileD.bad := h2
    obtain ⟨fi, hfi⟩ := Option.isSome_iff_exists.mp h3
    obtain rfl : xf = some fi := hfi
    rfl

/-- A storage directory whose documents file is readable, whose embeddings
file is present but unreadable, and whose index file is readable. -/
def stBadEmb : Storage :=
  { docsF := some (FileD.ok [docOld]), embF := some FileD.bad,
    idxF := some (FileD.ok { dim := 1, vecs := [[1]] }) }

/-- Witness for C5: both halves of the amended theorem at concrete inputs
(an empty directory, and `stBadEmb`). -/
theorem c5_load_atomicity_witness :
    loadLocally dbFull stEmpty = (false, dbFull)
    ∧ loadLocally dbEmpty stBadEmb = (false, { dbEmpty with documents := [docOld] }) :=
  ⟨c5_load_atomicity.1 dbFull stEmpty (Or.inl rfl),
   c5_load_atomicity.2 dbEmpty stBadEmb [docOld] rfl rfl rfl⟩

/-- Counterexample to C5 as stated: loading `stBadEmb` into the empty state
fails (the embeddings file is unreadable) yet the in-memory document list has
been replaced — the failing load did partially apply. -/
theorem c5_counterexample :
    loadLocally dbEmpty stBadEmb
      = (false, { documents := [docOld], embeddings := none, index := none })
    ∧ ({ documents := [docOld], embeddings := none, index := none } : DBState) ≠ dbEmpty := by
  refine ⟨?_, ?_⟩ <;> with_unfolding_all decide

/-- Number of rows of the in-memory embedding matrix (0 when absent). -/
def embRows (s : DBState) : Nat := (s.embeddings.map List.length).getD 0

/-- Cardinality of the in-memory index (0 when absent). -/
def ntotalOf (s : DBState) : Nat := (s.index.map (fun ix => ix.vecs.length)).getD 0

/-- Positional correspondence between the three in-memory structures: the
embedding matrix is present, the index holds exactly its rows in the same
order, and the matrix is the in-order batch encoding of the documents'
contents — so the vector at index position `i` is the embedding of document
`i`. -/
def indexAligned (enc : Enc) (s : DBState) : Prop :=
  ∃ embs, s.embeddings = some embs
    ∧ (∃ ix, s.index = some ix ∧ ix.vecs = embs)
    ∧ encodeAll enc (s.documents.map (fun d => d.content)) = some embs

/-- Positional correspondence implies the count equalities. -/
theorem indexAligned_parity (enc : Enc) (s : DBState) (h : indexAligned enc s) :
    embRows s = s.documents.length ∧ ntotalOf s = s.documents.length := by
  obtain ⟨embs, hemb, ⟨ix, hix, hvecs⟩, henc⟩ := h
  have hlen := encodeAll_length enc _ _ henc
  simp only [List.length_map] at hlen
  constructor
  · simp [embRows, hemb, hlen]
  · simp [ntotalOf, hix, hvecs, hlen]

/-- C8 (confirmed).  After every successful build, and after every successful
incremental add starting from an aligned state, the state is aligned — index
position `i` holds exactly the embedding of document `i` (the index vectors
equal the embedding rows, which are the in-order batch encoding of the
documents' contents) — and consequently the number of embedding rows equals
the number of documents equals the index cardinality. -/
theorem c8_index_document_parity :
    (∀ (enc : Enc) (splitter : Splitter) (pdfs : List PdfFile)
        (docsArg : Option (List Doc)) (fr : Bool) (s : DBState) (st : Storage)
        (ok : Bool) (s2 : DBState) (st2 : Storage),
      buildVectorDatabase enc splitter pdfs docsArg fr s st = (ok, s2, st2) →
      ok = true →
      indexAligned enc s2
        ∧ embRows s2 = s2.documents.length ∧ ntotalOf s2 = s2.documents.length)
    ∧ (∀ (enc : Enc) (s : DBState) (nd : List Doc) (ok : Bool) (s2 : DBState),
      indexAligned enc s →
      addDocumentsToExistingDb enc s nd = (ok, s2) → ok = true →
      indexAligned enc s2
        ∧ embRows s2 = s2.documents.length ∧ ntotalOf s2 = s2.documents.length) := by
  constructor
  · intro enc splitter pdfs docsArg fr s st ok s2 st2 h hok
    obtain ⟨docs, embs, -, hdocs, henc, hemb, hidx⟩ :=
      build_success_state enc splitter pdfs docsArg fr s st ok s2 st2 h hok
    have halign : indexAligned enc s2 :=
      ⟨embs, hemb, ⟨_, hidx, rfl⟩, by rw [hdocs]; exact henc⟩
    exact ⟨halign, indexAligned_parity enc s2 halign⟩
  · intro enc s nd ok s2 hpre h hok
    obtain ⟨embs0, hemb0, ⟨ix0, hix0, hvecs0⟩, henc0⟩ := hpre
    obtain ⟨embs, hdocs, henc, hemb, ix2, hidx, hvecs⟩ :=
      add_success_state enc s nd ok s2 h hok
    have hgetD : s.embeddings.getD [] = embs0 := by rw [hemb0]; rfl
    have hgetDix : (s.index.map FaissIndex.vecs).getD [] = embs0 := by
      rw [hix0]
      simp [hvecs0]
    have hencAll : encodeAll enc (s2.documents.map (fun d => d.content))
        = some (embs0 ++ embs) := by
      rw [hdocs, List.map_append]
      exact encodeAll_append enc _ _ _ _ henc0 henc
    have halign : indexAligned enc s2 :=
      ⟨embs0 ++ embs, by rw [hemb, hgetD], ⟨ix2, hidx, by rw [hvecs, hgetDix]⟩, hencAll⟩
    exact ⟨halign, indexAligned_parity enc s2 halign⟩

/-- An unscored document used for the incremental-add witness. -/
def docNew : Doc :=
  { category := "x", title := "new", content := "new content", source := "src2",
    chunkId := 0 }

/-- Witness for C8: the build half at a concrete successful build, and the
add half at a concrete successful incremental add from the aligned state
`dbFull`. -/
theorem c8_index_document_parity_witness :
    (indexAligned encOne (buildVectorDatabase encOne splitId [] (some [docGood]) false dbEmpty stEmpty).2.1
      ∧ embRows (buildVectorDatabase encOne splitId [] (some [docGood]) false dbEmpty stEmpty).2.1
        = (buildVectorDatabase encOne splitId [] (some [docGood]) false dbEmpty stEmpty).2.1.documents.length
      ∧ ntotalOf (buildVectorDatabase encOne splitId [] (some [docGood]) false dbEmpty stEmpty).2.1
        = (buildVectorDatabase encOne splitId [] (some [docGood]) false dbEmpty stEmpty).2.1.documents.length)
    ∧ (indexAligned encOne (addDocumentsToExistingDb encOne dbFull [docNew]).2
      ∧ embRows (addDocumentsToExistingDb encOne dbFull [docNew]).2
        = (addDocumentsToExistingDb encOne dbFull [docNew]).2.documents.length
      ∧ ntotalOf (addDocumentsToExistingDb encOne dbFull [docNew]).2
        = (addDocumentsToExistingDb encOne dbFull [docNew]).2.documents.length) :=
  ⟨c8_index_document_parity.1 encOne splitId [] (some [docGood]) false dbEmpty stEmpty
      _ _ _ rfl (by with_unfolding_all decide),
   c8_index_document_parity.2 encOne dbFull [docNew] _ _
      ⟨[[1]], rfl, ⟨{ dim := 1, vecs := [[1]] }, rfl, rfl⟩, by with_unfolding_all decide⟩
      rfl (by with_unfolding_all decide)⟩

/-- C10 (confirmed).  Whenever `search` returns normally, the in-memory
state after the call is exactly the state before it: the method only reads
the document list and the index. -/
theorem c10_search_readonly (enc : Enc) (s : DBState) (q : String) (k : Nat)
    (r : List (Doc × ℚ)) (s2 : DBState) (h : search enc s q k = some (r, s2)) :
    s2 = s := by
  simp only [search] at h
  split at h
  · injection h with h'
    exact (congrArg Prod.snd h').symm
  · split at h
    · exact absurd h (by simp)
    · split at h
      · exact absurd h (by simp)
      · injection h with h'
        exact (congrArg Prod.snd h').symm

/-- Witness for C10: the theorem applied to a concrete search over the
populated state `dbFull`. -/
theorem c10_search_readonly_witness :
    search encOne dbFull "q" 1 = some ([(docOld, 1)], dbFull)
    ∧ dbFull = dbFull :=
  ⟨by with_unfolding_all decide,
   c10_search_readonly encOne dbFull "q" 1 [(docOld, 1)] dbFull
     (by with_unfolding_all decide)⟩

/-- Sorted insertion adds exactly one element. -/
theorem insSorted_length (le : ℚ × Int → ℚ × Int → Bool) (x : ℚ × Int) :
    ∀ l : List (ℚ × Int), (insSorted le x l).length = l.length + 1 := by
  intro l
  induction l with
  | nil => rfl
  | cons y ys ih =>
    simp only [insSorted]
    split
    · simp
    · simp [ih]

/-- Membership in a sorted insertion. -/
theorem insSorted_mem (le : ℚ × Int → ℚ × Int → Bool) (x p : ℚ × Int) :
    ∀ l : List (ℚ × Int), p ∈ insSorted le x l ↔ p = x ∨ p ∈ l := by
  intro l
  induction l with
  | nil => simp [insSorted]
  | cons y ys ih =>
    simp only [insSorted]
    split
    · simp [List.mem_cons]
    · simp only [List.mem_cons, ih]
      tauto

/-- Sorting preserves length. -/
theorem sortScores_length : ∀ l : List (ℚ × Int), (sortScores l).length = l.length := by
  intro l
  induction l with
  | nil => rfl
  | cons y ys ih =>
    simp only [sortScores, List.foldr_cons]
    rw [insSorted_length]
    exact congrArg (fun n => n + 1) ih

/-- Sorting preserves membership. -/
theorem sortScores_mem (p : ℚ × Int) :
    ∀ l : List (ℚ × Int), p ∈ sortScores l ↔ p ∈ l := by
  intro l
  induction l with
  | nil => simp [sortScores]
  | cons y ys ih =>
    simp only [sortScores, List.foldr_cons]
    have ih2 : p ∈ List.foldr (insSorted scoreDescLe) [] ys ↔ p ∈ ys := ih
    rw [insSorted_mem, ih2, List.mem_cons]

/-- Every scored pair carries a position inside the scanned suffix. -/
theorem scoreAux_mem (qv : Vec) :
    ∀ (vs : List Vec) (i : Nat) (p : ℚ × Int), p ∈ scoreAux qv vs i →
      (i : Int) ≤ p.2 ∧ p.2 < (i : Int) + vs.length := by
  intro vs
  induction vs with
  | nil => intro i p hp; simp [scoreAux] at hp
  | cons v vs ih =>
    intro i p hp
    simp only [scoreAux, List.mem_cons] at hp
    rcases hp with hp | hp
    · subst hp
      refine ⟨le_refl _, ?_⟩
      simp only [List.length_cons]
      push_cast
      omega
    · obtain ⟨h1, h2⟩ := ih (i + 1) p hp
      constructor
      · omega
      · simp only [List.length_cons]
        push_cast at h2 ⊢
        omega

/-- The faiss search always returns exactly `k` entries (genuine matches
padded with `(-FLT_MAX, -1)` when `k` exceeds the cardinality). -/
theorem indexSearch_length (ix : FaissIndex) (qv : Vec) (k : Nat) :
    (indexSearch ix qv k).length = k := by
  simp only [indexSearch, List.length_append, List.length_take, List.length_replicate,
    sortScores_length]
  have h : (scoreAux qv ix.vecs 0).length = ix.vecs.length := by
    clear * -
    generalize 0 = i
    induction ix.vecs generalizing i with
    | nil => rfl
    | cons v vs ih => simp [scoreAux, ih]
  rw [h]
  omega

/-- Every label returned by the faiss search is `-1` (padding) or a genuine
position below the index cardinality. -/
theorem indexSearch_mem (ix : FaissIndex) (qv : Vec) (k : Nat) (p : ℚ × Int)
    (hp : p ∈ indexSearch ix qv k) :
    p.2 = -1 ∨ (0 ≤ p.2 ∧ p.2 < (ix.vecs.length : Int)) := by
  simp only [indexSearch, List.mem_append] at hp
  rcases hp with hp | hp
  · have hp2 : p ∈ sortScores (scoreAux qv ix.vecs 0) := List.take_subset _ _ hp
    have hp3 : p ∈ scoreAux qv ix.vecs 0 := (sortScores_mem p _).mp hp2
    obtain ⟨h1, h2⟩ := scoreAux_mem qv ix.vecs 0 p hp3
    right
    constructor
    · exact_mod_cast h1
    · simpa using h2
  · left
    have := List.eq_of_mem_replicate hp
    rw [this]

/-- Entries whose label is at least the document count contribute nothing to
the result loop. -/
theorem searchLoop_filter (docs : List Doc) :
    ∀ pairs : List (ℚ × Int),
      searchLoop docs pairs
        = searchLoop docs (pairs.filter (fun p => decide (p.2 < (docs.length : Int)))) := by
  intro pairs
  induction pairs with
  | nil => rfl
  | cons p rest ih =>
    by_cases h : p.2 < (docs.length : Int)
    · simp only [searchLoop, if_pos h, List.filter_cons, decide_eq_true h]
      cases pyIndex docs p.2 with
      | none => simp only [searchLoop, if_pos h]
      | some d => simp only [searchLoop, if_pos h, ih]
    · simp only [searchLoop, if_neg h, List.filter_cons]
      rw [decide_eq_false h]
      simpa using ih

/-- When every label is in range (or `-1`) and the document list is
non-empty, the result loop keeps every entry: one result per returned pair. -/
theorem searchLoop_total (docs : List Doc) (hne : docs ≠ []) :
    ∀ pairs : List (ℚ × Int),
      (∀ p ∈ pairs, p.2 = -1 ∨ (0 ≤ p.2 ∧ p.2 < (docs.length : Int))) →
      ∃ r, searchLoop docs pairs = some r ∧ r.length = pairs.length := by
  have hlen : 1 ≤ docs.length := by
    cases docs with
    | nil => exact absurd rfl hne
    | cons d ds => simp
  intro pairs
  induction pairs with
  | nil => exact fun _ => ⟨[], rfl, rfl⟩
  | cons p rest ih =>
    intro hmem
    obtain ⟨r, hr, hrlen⟩ := ih (fun q hq => hmem q (List.mem_cons_of_mem p hq))
    have hp := hmem p (List.mem_cons_self p rest)
    have hlt : p.2 < (docs.length : Int) := by
      have h0 : (0 : Int) ≤ (docs.length : Int) := Int.natCast_nonneg _
      rcases hp with hp | ⟨-, hp⟩
      · rw [hp]
        have h1 : (1 : Int) ≤ (docs.length : Int) := by exact_mod_cast hlen
        omega
      · exact hp
    have hsome : ∃ d, pyIndex docs p.2 = some d := by
      rcases hp with hp | ⟨h0, hp⟩
      · rw [hp]
        simp only [pyIndex]
        rw [if_neg (by omega : ¬ (0 : Int) ≤ -1)]
        have hna : ((-1 : Int)).natAbs = 1 := rfl
        rw [if_pos (by rw [hna]; exact hlen)]
        rw [hna]
        have hd : docs.length - 1 < docs.length := by omega
        exact ⟨_, List.get?_eq_get hd⟩
      · simp only [pyIndex, if_pos h0]
        have hd : p.2.toNat < docs.length := by omega
        exact ⟨_, List.get?_eq_get hd⟩
    obtain ⟨d, hd⟩ := hsome
    refine ⟨(d, p.1) :: r, ?_, by simp [hrlen]⟩
    simp only [searchLoop, if_pos hlt, hd, hr]

/-- C6 (amended).  With no index, `search` returns the empty sequence and
cannot raise.  Labels at or above the document count are silently skipped.
But the result count is NOT capped by the index cardinality: for a non-empty
in-sync database, `search(q, k)` returns exactly `k` results even when `k`
exceeds the cardinality — the faiss padding label `-1` passes the
`idx < len(documents)` guard and Python's negative indexing maps it to the
LAST document. -/
theorem c6_search_safety :
    (∀ (enc : Enc) (s : DBState) (q : String) (k : Nat),
      s.index = none → search enc s q k = some ([], s))
    ∧ (∀ (docs : List Doc) (pairs : List (ℚ × Int)),
      searchLoop docs pairs
        = searchLoop docs (pairs.filter (fun p => decide (p.2 < (docs.length : Int)))))
    ∧ (∀ (enc : Enc) (s : DBState) (q : String) (k : Nat) (ix : FaissIndex) (qv : Vec),
      s.index = some ix → enc q = some qv → s.documents ≠ [] →
      s.documents.length = ix.vecs.length →
      ∃ res, search enc s q k = some (res, s) ∧ res.length = k) := by
  refine ⟨?_, ?_, ?_⟩
  · intro enc s q k h
    simp [search, h]
  · exact searchLoop_filter
  · intro enc s q k ix qv hix hq hne hsync
    have hmem : ∀ p ∈ indexSearch ix qv k,
        p.2 = -1 ∨ (0 ≤ p.2 ∧ p.2 < (s.documents.length : Int)) := by
      intro p hp
      rcases indexSearch_mem ix qv k p hp with h | ⟨h1, h2⟩
      · exact Or.inl h
      · exact Or.inr ⟨h1, by rw [hsync]; exact h2⟩
    obtain ⟨r, hr, hrlen⟩ := searchLoop_total s.documents hne (indexSearch ix qv k) hmem
    refine ⟨r, ?_, by rw [hrlen, indexSearch_length]⟩
    simp [search, hix, hq, hr]

/-- Witness for C6: the in-sync clause applied to the one-document state
`dbFull` with `k = 3`. -/
theorem c6_search_safety_witness :
    dbFull.index = some { dim := 1, vecs := [[1]] }
    ∧ encOne "q" = some [1]
    ∧ dbFull.documents ≠ []
    ∧ dbFull.documents.length = 1
    ∧ ∃ res, search encOne dbFull "q" 3 = some (res, dbFull) ∧ res.length = 3 :=
  ⟨rfl, rfl, by with_unfolding_all decide, rfl,
   c6_search_safety.2.2 encOne dbFull "q" 3 { dim := 1, vecs := [[1]] } [1]
     rfl rfl (by with_unfolding_all decide) rfl⟩

/-- Counterexample to C6 as stated: searching the one-document database
`dbFull` with `k = 3` returns THREE results — the faiss padding label `-1`
maps to the last document twice — so the number of returned results exceeds
the index cardinality 1. -/
theorem c6_counterexample :
    (search encOne dbFull "q" 3).map (fun r => (r.1.map Prod.fst, r.2))
      = some ([docOld, docOld, docOld], dbFull)
    ∧ ntotalOf dbFull = 1
    ∧ ¬ (3 : Nat) ≤ 1 := by
  refine ⟨?_, ?_, ?_⟩ <;> with_unfolding_all decide

/-- C9 (confirmed).  For every built state (index and embedding matrix
present), `save_locally` succeeds and a subsequent `load_locally` into ANY
fresh instance reproduces the document count, the per-category distribution,
and — the loaded state being equal to the saved one — identical `search`
results (exact equality here; the floating-point tolerance of the claim is
the idealisation of ℚ for float). -/
theorem c9_roundtrip (s : DBState) (ix : FaissIndex) (embs : List Vec)
    (now : String) (st : Storage) (t : DBState)
    (hix : s.index = some ix) (hembs : s.embeddings = some embs) :
    ∃ st2, saveLocally s now st = (true, st2)
      ∧ loadLocally t st2 = (true, s)
      ∧ (loadLocally t st2).2.documents.length = s.documents.length
      ∧ categoryDistribution (loadLocally t st2).2.documents
          = categoryDistribution s.documents
      ∧ ∀ (enc : Enc) (q : String) (k : Nat),
          search enc (loadLocally t st2).2 q k = search enc s q k := by
  obtain ⟨sd, se, si⟩ := s
  obtain rfl : si = some ix := hix
  obtain rfl : se = some embs := hembs
  exact ⟨_, rfl, rfl, rfl, rfl, fun enc q k => rfl⟩

/-- Witness for C9: the round trip applied to the concrete built state
`dbFull`, saved into an empty directory and loaded into the empty state. -/
theorem c9_roundtrip_witness :
    ∃ st2, saveLocally dbFull "now" stEmpty = (true, st2)
      ∧ loadLocally dbEmpty st2 = (true, dbFull)
      ∧ (loadLocally dbEmpty st2).2.documents.length = dbFull.documents.length
      ∧ categoryDistribution (loadLocally dbEmpty st2).2.documents
          = categoryDistribution dbFull.documents
      ∧ ∀ (enc : Enc) (q : String) (k : Nat),
          search enc (loadLocally dbEmpty st2).2 q k = search enc dbFull q k :=
  c9_roundtrip dbFull { dim := 1, vecs := [[1]] } [[1]] "now" stEmpty dbEmpty rfl rfl

end VectorDB
